import Mathlib

/-!
Verification of the DOM snapshot collector of `scripts/dump_selectors.py`.

The development embeds, as executable Lean definitions, the active code of
that script: the JavaScript collection routine `JS_COLLECT_SELECTOR_TREE`
(`getSimpleSelector`, `getDomPath`, `getBoundingRect`, `isVisible`,
`isClickable`, `dataAttributes`, the recursive `walk`), the Python
`count_nodes` helper of `dump_selectors`, the pydantic models `ElementNode`
and `SelectorDump` together with their JSON wire format, and the path
construction of `save_selector_dump`.  Browser data that the script reads
through the DOM API (tag names, attributes, computed style, geometry,
`innerText`) is represented as fields of an element record; a geometry query
that may throw is an `Except` value.
-/

namespace Webdantic

/-! ## String helpers

Structural re-implementations of the string operations the script uses
(`toLowerCase`, `trim`, `slice`, joins, Python `str.replace`), written over
`List Char` so that every use reduces inside the kernel. -/

/-- Lower-case a string character by character (`String.toLowerCase` in JS;
ASCII as in the script's inputs). -/
def strLower (s : String) : String := ⟨s.data.map Char.toLower⟩

/-- Take the first `n` characters (`String.prototype.slice(0, n)`). -/
def strTake (s : String) (n : Nat) : String := ⟨s.data.take n⟩

/-- Whitespace class of the JavaScript `\s` regex character set (ASCII part). -/
def isJsWs (c : Char) : Bool :=
  c = ' ' || c = '\t' || c = '\n' || c = '\r' || c = '\x0b' || c = '\x0c'

/-- `String.prototype.trim`: drop leading and trailing whitespace. -/
def jsTrim (s : String) : String :=
  ⟨((s.data.dropWhile isJsWs).reverse.dropWhile isJsWs).reverse⟩

/-- Collapse every run of spaces to a single space (right fold form). -/
def squeezeSpaces : List Char → List Char
  | [] => []
  | c :: rest =>
    let tail := squeezeSpaces rest
    if c = ' ' then
      match tail with
      | ' ' :: _ => tail
      | _ => ' ' :: tail
    else c :: tail

/-- The script's `.replace(/\s+/g, " ")`: every maximal whitespace run becomes
one space. -/
def jsCollapseWs (s : String) : String :=
  ⟨squeezeSpaces (s.data.map (fun c => if isJsWs c then ' ' else c))⟩

/-- Join strings with a separator (`Array.prototype.join`). -/
def strJoinSep (sep : String) : List String → String
  | [] => ""
  | [s] => s
  | s :: rest => s ++ sep ++ strJoinSep sep rest

/-- Concatenate a list of strings. -/
def strJoin : List String → String
  | [] => ""
  | s :: rest => s ++ strJoin rest

/-- One scan of Python `str.replace`: at each position either copy the
character, or, when the pattern matches, emit the replacement and skip the
rest of the matched pattern (`skip` counts characters still to drop).  `old`
is assumed non-empty (as in the script); an empty `old` leaves the input
unchanged. -/
def pyReplaceGo (old new : List Char) : Nat → List Char → List Char
  | _, [] => []
  | skip + 1, _ :: rest => pyReplaceGo old new skip rest
  | 0, c :: rest =>
    if !old.isEmpty && old.isPrefixOf (c :: rest) then
      new ++ pyReplaceGo old new (old.length - 1) rest
    else c :: pyReplaceGo old new 0 rest

/-- Python `s.replace(old, new)`: replace all non-overlapping occurrences,
scanning left to right. -/
def pyReplace (s old new : String) : String :=
  ⟨pyReplaceGo old.data new.data 0 s.data⟩

/-! ## CSS identifier escaping

Models the browser's `CSS.escape` (the CSSOM serialize-an-identifier
algorithm), which `getSimpleSelector` calls; the browser implementation is
external to the repository. -/

/-- A decimal digit character. -/
def isDigitCh (c : Char) : Bool := '0' ≤ c && c ≤ '9'

/-- A character that `CSS.escape` passes through unescaped. -/
def isCssSafe (c : Char) : Bool :=
  c.toNat ≥ 0x80 || c = '-' || c = '_' || isDigitCh c ||
    ('A' ≤ c && c ≤ 'Z') || ('a' ≤ c && c ≤ 'z')

/-- Hex escape `\XX ` used by `CSS.escape` for control and leading-digit
code points. -/
def cssHexEscape (c : Char) : String :=
  "\\" ++ ⟨Nat.toDigits 16 c.toNat⟩ ++ " "

/-- Escape one character of an identifier; `n` is the identifier length,
`first` its first character and `i` the character's index. -/
def cssEscapeChar (n : Nat) (first : Char) (i : Nat) (c : Char) : String :=
  if c = '\x00' then ⟨[Char.ofNat 0xFFFD]⟩
  else if (1 ≤ c.toNat && c.toNat ≤ 0x1f) || c.toNat = 0x7f then cssHexEscape c
  else if i = 0 && isDigitCh c then cssHexEscape c
  else if i = 1 && isDigitCh c && first = '-' then cssHexEscape c
  else if i = 0 && c = '-' && n = 1 then "\\-"
  else if isCssSafe c then ⟨[c]⟩
  else "\\" ++ ⟨[c]⟩

/-- `CSS.escape` on a whole string. -/
def cssEscape (s : String) : String :=
  let cs := s.data
  strJoin (cs.enum.map (fun p => cssEscapeChar cs.length (cs.headD '\x00') p.1 p.2))

/-! ## The document model

What the collection script reads from a live element through the DOM API:
tag name, id, class list, attributes, `innerText`, computed style and
bounding geometry.  `geom` is the outcome of `getBoundingClientRect()`:
`Except.error ()` models the call throwing (detached node, engine error). -/

/-- Result record of `getBoundingClientRect`, as copied by the script. -/
structure Rect where
  x : Int
  y : Int
  top : Int
  left : Int
  right : Int
  bottom : Int
  width : Int
  height : Int
deriving DecidableEq, Repr

/-- The computed-style properties the script queries via
`window.getComputedStyle`. -/
structure Style where
  display : String
  visibility : String
  opacity : String
deriving DecidableEq, Repr

instance : DecidableEq (Except Unit Rect) := fun a b =>
  match a, b with
  | .ok r, .ok r' =>
    if h : r = r' then .isTrue (by rw [h]) else .isFalse (by simp [h])
  | .error _, .error _ => .isTrue rfl
  | .ok _, .error _ => .isFalse (by simp)
  | .error _, .ok _ => .isFalse (by simp)

/-- Everything the script reads from one element node. -/
structure ElemData where
  tagName : String
  id : String
  classes : List String
  attrs : List (String × String)
  innerText : String
  style : Style
  geom : Except Unit Rect
deriving Repr, DecidableEq

mutual
/-- A DOM node: an element with its ordered child nodes, or a non-element
node (text, comment, ...). -/
inductive DomNode where
  | elem : ElemData → DomForest → DomNode
  | other : DomNode
deriving DecidableEq
/-- An ordered list of sibling DOM nodes. -/
inductive DomForest where
  | nil : DomForest
  | cons : DomNode → DomForest → DomForest
deriving DecidableEq
end

/-- Tag names of the element children, in document order — the chain that
`firstElementChild` / `nextElementSibling` visits. -/
def elemTags : DomForest → List String
  | .nil => []
  | .cons (.elem d _) rest => d.tagName :: elemTags rest
  | .cons .other rest => elemTags rest

/-- `getAttribute`: the value of the first attribute with the given name,
`null` when absent. -/
def getAttr (d : ElemData) (nm : String) : Option String :=
  (d.attrs.find? (fun p => p.1 = nm)).map (fun p => p.2)

/-! ## Selector and path derivation (`getSimpleSelector`, `getDomPath`) -/

/-- `getSimpleSelector`: `#` + escaped id when the id is non-empty (classes
ignored), otherwise the lower-cased tag followed by `.`-joined escaped
classes; the empty string on a non-element. -/
def getSimpleSelector : DomNode → String
  | .other => ""
  | .elem d _ =>
    if d.id ≠ "" then "#" ++ cssEscape d.id
    else
      let sel := strLower d.tagName
      if d.classes.length > 0 then
        sel ++ "." ++ strJoinSep "." (d.classes.map cssEscape)
      else sel

/-- One step of the ancestor chain that `getDomPath` walks: the node's own
`tagName`, the `tagName`s of its parent's element children in document
order, and the node's position among them. -/
structure Crumb where
  tagName : String
  sibTags : List String
  pos : Nat
deriving DecidableEq, Repr

/-- The sibling scan of `getDomPath`: over the parent's element children it
counts how many share the node's `tagName` (`sibCount`) and records, when
the scan passes the node itself, how many came before it (`sibIndex`). -/
def sibScanGo (tagName : String) (pos : Nat) :
    List String → Nat → Nat → Nat → Nat × Nat
  | [], _, cnt, idx => (cnt, idx)
  | s :: rest, i, cnt, idx =>
    if s = tagName then
      sibScanGo tagName pos rest (i + 1) (cnt + 1) (if i = pos then cnt else idx)
    else
      sibScanGo tagName pos rest (i + 1) cnt idx

/-- `(sibCount, sibIndex)` for one crumb. -/
def sibScan (sibs : List String) (tagName : String) (pos : Nat) : Nat × Nat :=
  sibScanGo tagName pos sibs 0 0 0

/-- The path segments accumulated by `getDomPath`'s while loop, node first:
the loop stops as soon as the visited node's lower-cased tag is `html` (or
the element chain ends), and prepends one segment per remaining node. -/
def domPathSegs : List Crumb → List String
  | [] => []
  | cr :: rest =>
    if strLower cr.tagName = "html" then []
    else
      let sc := sibScan cr.sibTags cr.tagName cr.pos
      let part := strLower cr.tagName ++
        (if sc.1 > 1 then ":nth-of-type(" ++ toString (sc.2 + 1) ++ ")" else "")
      domPathSegs rest ++ [part]

/-- `getDomPath`: `"html > "` followed by the `" > "`-joined segments; the
empty string on a non-element. -/
def getDomPathNode (n : DomNode) (chain : List Crumb) : String :=
  match n with
  | .other => ""
  | .elem _ _ => "html > " ++ strJoinSep " > " (domPathSegs chain)

/-! ## Heuristic classifiers -/

/-- `getBoundingRect`: the geometry, with any thrown error caught and turned
into `null`. -/
def getBoundingRect (d : ElemData) : Option Rect :=
  match d.geom with
  | .ok r => some r
  | .error _ => none

/-- `isVisible`: false on `display: none`, `visibility: hidden` or
`opacity: "0"`; otherwise it calls `getBoundingClientRect()` **without** a
try/catch, so a geometry failure propagates (`Except.error`). -/
def isVisibleE (d : ElemData) : Except Unit Bool :=
  if d.style.display = "none" ∨ d.style.visibility = "hidden" ∨
      d.style.opacity = "0" then
    .ok false
  else
    match d.geom with
    | .error e => .error e
    | .ok r => .ok (decide (r.width > 0) && decide (r.height > 0))

/-- `isClickable`: the tag / input-type / role / onclick rule table of the
script. -/
def isClickable (d : ElemData) : Bool :=
  let tag := strLower d.tagName
  if ["a", "button", "summary"].contains tag then true
  else if tag = "input" &&
      ["button", "submit", "reset", "checkbox", "radio", "image"].contains
        (strLower ((getAttr d "type").getD "")) then true
  else if ["button", "link", "tab", "menuitem"].contains
      (strLower ((getAttr d "role").getD "")) then true
  else
    match getAttr d "onclick" with
    | some oc => !oc.isEmpty && !(jsTrim oc).isEmpty
    | none => false

/-- `dataAttributes`: the attributes whose name starts with `data-`. -/
def dataAttributes (d : ElemData) : List (String × String) :=
  d.attrs.filter (fun p => !p.1.isEmpty && p.1.startsWith "data-")

/-- The `text` field: `innerText` with whitespace runs collapsed, trimmed,
cut at 200 characters; `null` when empty. -/
def textOf (d : ElemData) : Option String :=
  let t := strTake (jsTrim (jsCollapseWs d.innerText)) 200
  if t = "" then none else some t

/-! ## The descriptor tree (pydantic `ElementNode`) -/

/-- The scalar fields of the pydantic `ElementNode` model, in declaration
order. -/
structure ENodeData where
  index : Nat
  tag : String
  id : Option String
  classes : List String
  name : Option String
  type : Option String
  role : Option String
  aria_label : Option String
  text : Option String
  simple_selector : String
  dom_path : String
  href : Option String
  src : Option String
  data_attributes : List (String × String)
  bounding_client_rect : Option Rect
  is_clickable : Bool
  is_visible : Bool
deriving DecidableEq, Repr

mutual
/-- One node of the snapshot tree: scalar fields plus ordered children. -/
inductive ElementNode where
  | mk : ENodeData → ENodeList → ElementNode
deriving DecidableEq
/-- An ordered list of `ElementNode` (the `children` field). -/
inductive ENodeList where
  | nil : ENodeList
  | cons : ElementNode → ENodeList → ENodeList
deriving DecidableEq
end

/-- The scalar fields of a node. -/
def ElementNode.data : ElementNode → ENodeData
  | .mk d _ => d

/-- The children of a node. -/
def ElementNode.children : ElementNode → ENodeList
  | .mk _ k => k

/-! ## The recursive walk (`walk` of `JS_COLLECT_SELECTOR_TREE`) -/

/-- The object literal `walk` builds for one element: index `c`, the derived
fields of §4.1/§4.2, and the already-computed `is_visible` value. -/
def descriptorData (d : ElemData) (kids : DomForest) (chain : List Crumb)
    (c : Nat) (vis : Bool) : ENodeData :=
  { index := c
    tag := strLower d.tagName
    id := if d.id = "" then none else some d.id
    classes := d.classes
    name := getAttr d "name"
    type := getAttr d "type"
    role := getAttr d "role"
    aria_label := getAttr d "aria-label"
    text := textOf d
    simple_selector := getSimpleSelector (.elem d kids)
    dom_path := getDomPathNode (.elem d kids) chain
    href := getAttr d "href"
    src := getAttr d "src"
    data_attributes := dataAttributes d
    bounding_client_rect := getBoundingRect d
    is_clickable := isClickable d
    is_visible := vis }

mutual
/-- `walk(el)`: `null` on a non-element; otherwise assign the next index,
derive the descriptor fields, and recurse over the element children.
`chain` is the ancestor-crumb list for `getDomPath`; `c` the global index
counter.  An uncaught geometry failure inside `isVisible` aborts the whole
collection (`Except.error`). -/
def walk : DomNode → List Crumb → Nat → Except Unit (Option ElementNode × Nat)
  | .other, _, c => .ok (none, c)
  | .elem d kids, chain, c =>
    match isVisibleE d with
    | .error e => .error e
    | .ok vis =>
      match walkKids kids (elemTags kids) 0 chain (c + 1) with
      | .error e => .error e
      | .ok (cs, c') => .ok (some (.mk (descriptorData d kids chain c vis) cs), c')
/-- The loop over `Array.from(el.children)`: element children are walked in
order (each result pushed), non-element nodes are not element children and
are skipped; `pos` counts the position among element children for the
child's crumb. -/
def walkKids : DomForest → List String → Nat → List Crumb → Nat →
    Except Unit (ENodeList × Nat)
  | .nil, _, _, _, c => .ok (.nil, c)
  | .cons .other rest, sibs, pos, parentChain, c =>
    walkKids rest sibs pos parentChain c
  | .cons (.elem d k) rest, sibs, pos, parentChain, c =>
    match walk (.elem d k) (⟨d.tagName, sibs, pos⟩ :: parentChain) c with
    | .error e => .error e
    | .ok (none, c1) => walkKids rest sibs (pos + 1) parentChain c1
    | .ok (some t, c1) =>
      match walkKids rest sibs (pos + 1) parentChain c1 with
      | .error e => .error e
      | .ok (ts, c2) => .ok (.cons t ts, c2)
end

/-- The crumb of the document root: `document.firstElementChild` is the root
itself, and its parent (the document) ends the element chain. -/
def rootChain : DomNode → List Crumb
  | .other => []
  | .elem d _ => [⟨d.tagName, [d.tagName], 0⟩]

/-- The whole collection script: `walk(document.documentElement)` with a
fresh counter. -/
def collectSelectorTree (doc : DomNode) : Except Unit (Option ElementNode × Nat) :=
  walk doc (rootChain doc) 0

/-- The root descriptor of a successful collection. -/
def resultRoot (doc : DomNode) : Option ElementNode :=
  match collectSelectorTree doc with
  | .ok (some t, _) => some t
  | _ => none

/-- The number of index assignments a successful collection performed (the
final value of `globalIndex`), i.e. how many descriptors the walk produced. -/
def walkProducedCount (doc : DomNode) : Option Nat :=
  match collectSelectorTree doc with
  | .ok (some _, c) => some c
  | _ => none

/-- The `dom_path` of the root descriptor. -/
def rootDomPath (doc : DomNode) : Option String :=
  (resultRoot doc).map (fun t => t.data.dom_path)

/-! ## `count_nodes` and pre-order flattening -/

mutual
/-- The Python `count_nodes`: `1 + sum(count_nodes(child) for child in
node.children)`. -/
def countNodes : ElementNode → Nat
  | .mk _ kids => 1 + countList kids
/-- Sum of `countNodes` over a child list. -/
def countList : ENodeList → Nat
  | .nil => 0
  | .cons t rest => countNodes t + countList rest
end

mutual
/-- The `index` values of a tree, flattened in pre-order. -/
def preIdx : ElementNode → List Nat
  | .mk d kids => d.index :: preIdxList kids
/-- Pre-order `index` values of a child list. -/
def preIdxList : ENodeList → List Nat
  | .nil => []
  | .cons t rest => preIdx t ++ preIdxList rest
end

mutual
/-- The tags of a tree, flattened in pre-order (used to state the scenario
claims). -/
def preTags : ElementNode → List String
  | .mk d kids => d.tag :: preTagsList kids
/-- Pre-order tags of a child list. -/
def preTagsList : ENodeList → List String
  | .nil => []
  | .cons t rest => preTags t ++ preTagsList rest
end

/-- Child at a position. -/
def childAt : ENodeList → Nat → Option ElementNode
  | .nil, _ => none
  | .cons t _, 0 => some t
  | .cons _ rest, n + 1 => childAt rest n

/-- Descend along a list of child positions. -/
def nodeAtPath : ElementNode → List Nat → Option ElementNode
  | t, [] => some t
  | t, i :: rest =>
    match childAt t.children i with
    | some c => nodeAtPath c rest
    | none => none

/-! ## Record construction (`dump_selectors` and the `SelectorDump` model)

The active pydantic `SelectorDump` model declares the fields
`url, title, total_elements, elements, raw_meta`, of which only `raw_meta`
has a default; the active `dump_selectors` constructs it with the keywords
`url, title, total_elements, root, raw_meta`. -/

/-- Declared field names of the active `SelectorDump` model, in order. -/
def selectorDumpFields : List String :=
  ["url", "title", "total_elements", "elements", "raw_meta"]

/-- The `SelectorDump` fields without a default value. -/
def selectorDumpRequired : List String :=
  ["url", "title", "total_elements", "elements"]

/-- The keyword names `dump_selectors` passes to the `SelectorDump`
constructor. -/
def dumpSelectorsKeywords : List String :=
  ["url", "title", "total_elements", "root", "raw_meta"]

/-- Models pydantic v2 keyword construction under the models' default
config: construction succeeds iff every required field name is among the
provided keywords (extra keywords are ignored). -/
def pydanticConstructOk (required provided : List String) : Bool :=
  required.all provided.contains

/-! ## Persistence (`save_selector_dump`)

The path arithmetic of the active `save_selector_dump`, parameterised over
the dump directory, the dump's URL and the `%Y%m%d_%H%M%S` timestamp. -/

/-- Characters up to the end of a URL authority. -/
def netlocAfter : List Char → List Char
  | [] => []
  | c :: rest =>
    if c = '/' || c = '?' || c = '#' then [] else c :: netlocAfter rest

/-- Scan for the `//` that introduces the authority. -/
def findNetloc : List Char → List Char
  | '/' :: '/' :: rest => netlocAfter rest
  | _ :: rest => findNetloc rest
  | [] => []

/-- Models Python `urlparse(url).netloc` for URLs in which `//` introduces
the authority (as every URL handled by the script does): the substring after
the first `//` up to the next `/`, `?` or `#`; empty when there is no `//`. -/
def hostOf (url : String) : String := ⟨findNetloc url.data⟩

/-- `parsed.netloc or "unknown"`. -/
def hostOrUnknown (url : String) : String :=
  if hostOf url = "" then "unknown" else hostOf url

/-- `normalized_urldir`: the chained `str.replace` calls applied to the
dump's URL. -/
def sanitizeUrl (url : String) : String :=
  pyReplace (pyReplace (pyReplace (pyReplace (pyReplace (pyReplace
    url "://" "_") "/" "_") "?" "_") "&" "_") "=" "_") "." "_"

/-- `subdir_name`: the host with `:`, `/` and `.` replaced by `_`. -/
def subdirName (url : String) : String :=
  pyReplace (pyReplace (pyReplace (hostOrUnknown url) ":" "_") "/" "_") "." "_"

/-- `pathlib` `/` on simple relative components. -/
def pyJoin (a b : String) : String := a ++ "/" ++ b

/-- Python `s[:k]` with a possibly negative bound: a negative `k` keeps all
but the last `-k` characters. -/
def pySliceTo (s : String) (k : Int) : String :=
  if 0 ≤ k then ⟨s.data.take k.toNat⟩
  else ⟨s.data.take (s.data.length - (-k).toNat)⟩

/-- The final path component `save_selector_dump` writes to: the sanitized
URL plus `.json`, and when that exceeds 255 characters, the sanitized URL
sliced to `250 - len(str(run_dir / timestamp))` characters plus `.json`. -/
def saveFileName (dumpDir url timestamp : String) : String :=
  let urldir := sanitizeUrl url
  let runDir := pyJoin dumpDir (subdirName url)
  let name0 := urldir ++ ".json"
  if name0.length > 255 then
    let prelimLen := (pyJoin runDir timestamp).length
    let extraLen : Int := (250 : Int) - prelimLen
    pySliceTo urldir extraLen ++ ".json"
  else name0

/-- The full path `save_selector_dump` returns. -/
def saveFilePath (dumpDir url timestamp : String) : String :=
  pyJoin (pyJoin (pyJoin dumpDir (subdirName url)) timestamp)
    (saveFileName dumpDir url timestamp)

/-! ## The JSON wire format

`model_dump_json` / `model_validate_json` of the pydantic models, over an
explicit JSON value type (mutual with its array and object spines so all
recursion is structural). -/

mutual
/-- A JSON value. -/
inductive JVal where
  | jnull : JVal
  | jbool : Bool → JVal
  | jnum : Int → JVal
  | jstr : String → JVal
  | jarr : JArr → JVal
  | jobj : JObj → JVal
deriving DecidableEq
/-- A JSON array. -/
inductive JArr where
  | anil : JArr
  | acons : JVal → JArr → JArr
deriving DecidableEq
/-- A JSON object (ordered fields, as Python dicts are). -/
inductive JObj where
  | onil : JObj
  | ocons : String → JVal → JObj → JObj
deriving DecidableEq
end

/-- First value bound to a key. -/
def JObj.find : JObj → String → Option JVal
  | .onil, _ => none
  | .ocons k v rest, nm => if k = nm then some v else JObj.find rest nm

/-- Serialize `str | None`. -/
def jOptStr : Option String → JVal
  | none => .jnull
  | some s => .jstr s

/-- Serialize `list[str]`. -/
def jStrList : List String → JArr
  | [] => .anil
  | s :: rest => .acons (.jstr s) (jStrList rest)

/-- Serialize `dict[str, str]`. -/
def jStrPairs : List (String × String) → JObj
  | [] => .onil
  | p :: rest => .ocons p.1 (.jstr p.2) (jStrPairs rest)

/-- Serialize a `BoundingClientRect`. -/
def jRect (r : Rect) : JVal :=
  .jobj (.ocons "x" (.jnum r.x) (.ocons "y" (.jnum r.y) (.ocons "top" (.jnum r.top)
    (.ocons "left" (.jnum r.left) (.ocons "right" (.jnum r.right)
    (.ocons "bottom" (.jnum r.bottom) (.ocons "width" (.jnum r.width)
    (.ocons "height" (.jnum r.height) .onil))))))))

/-- Serialize `BoundingClientRect | None`. -/
def jOptRect : Option Rect → JVal
  | none => .jnull
  | some r => jRect r

/-- Serialize the `DataAttributes` wrapper: `{"values": {...}}`. -/
def jDataAttrs (l : List (String × String)) : JVal :=
  .jobj (.ocons "values" (.jobj (jStrPairs l)) .onil)

/-- The serialized fields of one `ElementNode`, in model order, with the
serialized `children` value `ch` last. -/
def dataFieldsJson (d : ENodeData) (ch : JVal) : JObj :=
  .ocons "index" (.jnum (d.index : Int)) (.ocons "tag" (.jstr d.tag)
  (.ocons "id" (jOptStr d.id)
  (.ocons "classes" (.jarr (jStrList d.classes)) (.ocons "name" (jOptStr d.name)
  (.ocons "type" (jOptStr d.type) (.ocons "role" (jOptStr d.role)
  (.ocons "aria_label" (jOptStr d.aria_label) (.ocons "text" (jOptStr d.text)
  (.ocons "simple_selector" (.jstr d.simple_selector)
  (.ocons "dom_path" (.jstr d.dom_path)
  (.ocons "href" (jOptStr d.href) (.ocons "src" (jOptStr d.src)
  (.ocons "data_attributes" (jDataAttrs d.data_attributes)
  (.ocons "bounding_client_rect" (jOptRect d.bounding_client_rect)
  (.ocons "is_clickable" (.jbool d.is_clickable)
  (.ocons "is_visible" (.jbool d.is_visible)
  (.ocons "children" ch .onil)))))))))))))))))

mutual
/-- `model_dump_json` of one `ElementNode`. -/
def nodeToJson : ElementNode → JVal
  | .mk d kids => .jobj (dataFieldsJson d (.jarr (listToJson kids)))
/-- Serialize a child list. -/
def listToJson : ENodeList → JArr
  | .nil => .anil
  | .cons t rest => .acons (nodeToJson t) (listToJson rest)
end

/-- Parse `str`. -/
def asStr : JVal → Option String
  | .jstr s => some s
  | _ => none

/-- Parse `str | None`. -/
def asOptStr : JVal → Option (Option String)
  | .jnull => some none
  | .jstr s => some (some s)
  | _ => none

/-- Parse `bool`. -/
def asBool : JVal → Option Bool
  | .jbool b => some b
  | _ => none

/-- Parse `int`. -/
def asInt : JVal → Option Int
  | .jnum n => some n
  | _ => none

/-- Parse a non-negative `int` (the `index` counter). -/
def asNat : JVal → Option Nat
  | .jnum n => if n < 0 then none else some n.toNat
  | _ => none

/-- Parse a JSON array of strings. -/
def strListOfJArr : JArr → Option (List String)
  | .anil => some []
  | .acons (.jstr s) rest => (strListOfJArr rest).map (fun l => s :: l)
  | .acons _ _ => none

/-- Parse `list[str]`. -/
def asStrList : JVal → Option (List String)
  | .jarr a => strListOfJArr a
  | _ => none

/-- Parse a JSON object of string values. -/
def strPairsOfJObj : JObj → Option (List (String × String))
  | .onil => some []
  | .ocons k (.jstr v) rest => (strPairsOfJObj rest).map (fun l => (k, v) :: l)
  | .ocons _ _ _ => none

/-- Parse a `BoundingClientRect`. -/
def asRect : JVal → Option Rect
  | .jobj o => do
    let x ← (JObj.find o "x").bind asInt
    let y ← (JObj.find o "y").bind asInt
    let top ← (JObj.find o "top").bind asInt
    let left ← (JObj.find o "left").bind asInt
    let right ← (JObj.find o "right").bind asInt
    let bottom ← (JObj.find o "bottom").bind asInt
    let width ← (JObj.find o "width").bind asInt
    let height ← (JObj.find o "height").bind asInt
    pure ⟨x, y, top, left, right, bottom, width, height⟩
  | _ => none

/-- Parse `BoundingClientRect | None`. -/
def asOptRect : JVal → Option (Option Rect)
  | .jnull => some none
  | v => (asRect v).map some

/-- Parse the `DataAttributes` wrapper (missing `values` takes the model
default `{}`). -/
def asDataAttrs : JVal → Option (List (String × String))
  | .jobj o =>
    match JObj.find o "values" with
    | none => some []
    | some (.jobj vo) => strPairsOfJObj vo
    | some _ => none
  | _ => none

/-- A required model field: look the key up and convert. -/
def getReq {α : Type} (o : JObj) (nm : String) (conv : JVal → Option α) :
    Option α :=
  (JObj.find o nm).bind conv

/-- A defaulted model field: a missing key validates to the default. -/
def getOpt {α : Type} (o : JObj) (nm : String) (dflt : α)
    (conv : JVal → Option α) : Option α :=
  match JObj.find o nm with
  | none => some dflt
  | some v => conv v

/-- Validate the scalar fields of an `ElementNode` from a JSON object, with
the model's defaults for optional fields: the node validates exactly when
every field lookup validates. -/
def dataFromObj (o : JObj) : Option ENodeData :=
  match getReq o "index" asNat, getReq o "tag" asStr,
      getOpt o "id" none asOptStr, getOpt o "classes" [] asStrList,
      getOpt o "name" none asOptStr, getOpt o "type" none asOptStr,
      getOpt o "role" none asOptStr, getOpt o "aria_label" none asOptStr,
      getOpt o "text" none asOptStr, getReq o "simple_selector" asStr,
      getReq o "dom_path" asStr, getOpt o "href" none asOptStr,
      getOpt o "src" none asOptStr, getOpt o "data_attributes" [] asDataAttrs,
      getOpt o "bounding_client_rect" none asOptRect,
      getOpt o "is_clickable" false asBool,
      getOpt o "is_visible" true asBool with
  | some index, some tag, some id, some classes, some name, some type,
      some role, some aria_label, some text, some simple_selector,
      some dom_path, some href, some src, some data_attributes,
      some bounding_client_rect, some is_clickable, some is_visible =>
    some (ENodeData.mk index tag id classes name type role aria_label text
      simple_selector dom_path href src data_attributes
      bounding_client_rect is_clickable is_visible)
  | _, _, _, _, _, _, _, _, _, _, _, _, _, _, _, _, _ => none

mutual
/-- `model_validate_json` of one `ElementNode`. -/
def nodeFromJson : JVal → Option ElementNode
  | .jobj o =>
    match childrenFromObj o, dataFromObj o with
    | some kids, some d => some (.mk d kids)
    | _, _ => none
  | _ => none
/-- Validate the `children` field of an object (a missing key takes the
model default `[]`). -/
def childrenFromObj : JObj → Option ENodeList
  | .onil => some .nil
  | .ocons k v rest =>
    if k = "children" then
      match v with
      | .jarr a => listFromJson a
      | _ => none
    else childrenFromObj rest
/-- Validate a JSON array of `ElementNode`s. -/
def listFromJson : JArr → Option ENodeList
  | .anil => some .nil
  | .acons v rest =>
    match nodeFromJson v, listFromJson rest with
    | some t, some ts => some (.cons t ts)
    | _, _ => none
end

/-- The active `SelectorDump` pydantic model (see `selectorDumpFields`):
page metadata, element count, the validated element list, and free-form
metadata. -/
structure SelectorDump where
  url : String
  title : String
  total_elements : Int
  elements : ENodeList
  raw_meta : JObj
deriving DecidableEq

/-- `model_dump_json` of a `SelectorDump`. -/
def dumpToJson (s : SelectorDump) : JVal :=
  .jobj (.ocons "url" (.jstr s.url) (.ocons "title" (.jstr s.title)
    (.ocons "total_elements" (.jnum s.total_elements)
    (.ocons "elements" (.jarr (listToJson s.elements))
    (.ocons "raw_meta" (.jobj s.raw_meta) .onil)))))

/-- Parse `dict[str, Any]`. -/
def asObj : JVal → Option JObj
  | .jobj o => some o
  | _ => none

/-- Parse `list[ElementNode]`. -/
def asNodeList : JVal → Option ENodeList
  | .jarr a => listFromJson a
  | _ => none

/-- `model_validate_json` of a `SelectorDump`. -/
def dumpFromJson : JVal → Option SelectorDump
  | .jobj o => do
    let url ← getReq o "url" asStr
    let title ← getReq o "title" asStr
    let total_elements ← getReq o "total_elements" asInt
    let elements ← getReq o "elements" asNodeList
    let raw_meta ← getOpt o "raw_meta" .onil asObj
    pure { url, title, total_elements, elements, raw_meta }
  | _ => none

/-! ## Concrete fixtures

Small concrete documents and save-path inputs used to instantiate the
claims. -/

/-- An ordinary visible computed style. -/
def okStyle : Style := ⟨"block", "visible", "1"⟩

/-- An ordinary non-degenerate bounding rectangle. -/
def okRect : Rect := ⟨0, 0, 0, 0, 100, 50, 100, 50⟩

/-- A document consisting of a bare `<html>` element. -/
def dHtmlOnly : ElemData := ⟨"html", "", [], [], "", okStyle, .ok okRect⟩

/-- The bare-`<html>` document as a node. -/
def docHtmlOnly : DomNode := .elem dHtmlOnly .nil

/-- `<span>A</span>` of the end-to-end scenario document. -/
def spanA : DomNode := .elem ⟨"span", "", [], [], "A", okStyle, .ok okRect⟩ .nil

/-- `<span>B</span>` of the scenario document. -/
def spanB : DomNode := .elem ⟨"span", "", [], [], "B", okStyle, .ok okRect⟩ .nil

/-- `<div id="x">` with the two spans. -/
def divX : DomNode :=
  .elem ⟨"div", "x", [], [], "A B", okStyle, .ok okRect⟩
    (.cons spanA (.cons spanB .nil))

/-- `<body>` with the div. -/
def bodyN : DomNode :=
  .elem ⟨"body", "", [], [], "A B", okStyle, .ok okRect⟩ (.cons divX .nil)

/-- The scenario document
`<html><body><div id="x"><span>A</span><span>B</span></div></body></html>`. -/
def doc6 : DomNode :=
  .elem ⟨"html", "", [], [], "A B", okStyle, .ok okRect⟩ (.cons bodyN .nil)

/-- Whether the whole collection aborts with an error. -/
def walkFails (doc : DomNode) : Bool :=
  match collectSelectorTree doc with
  | .error _ => true
  | .ok _ => false

/-- A visible element whose geometry query throws. -/
def dBadVisible : ElemData := ⟨"div", "", [], [], "", okStyle, .error ()⟩

/-- A single-element document around `dBadVisible`. -/
def docBadVisible : DomNode := .elem dBadVisible .nil

/-- A `display: none` element whose geometry query throws. -/
def dHidden : ElemData := ⟨"div", "", [], [], "", ⟨"none", "visible", "1"⟩, .error ()⟩

/-- A dump directory whose path is 260 characters long. -/
def longDir : String := ⟨List.replicate 260 'd'⟩

/-- A URL whose sanitized form is 318 characters long. -/
def longUrl : String := "https://example.com/" ++ ⟨List.replicate 300 'a'⟩

/-- A `%Y%m%d_%H%M%S` timestamp (always 15 characters). -/
def ts0 : String := "20250101_000000"

/-! ## Counting and pre-order lemmas about the walk -/

/-- Two adjacent index ranges glue into one. -/
theorem rangeGlue (c m n : Nat) :
    List.range' c m ++ List.range' (c + m) n = List.range' c (m + n) := by
  have happ := List.range'_append c m n 1
  simp only [Nat.one_mul, one_mul] at happ
  rw [happ, Nat.add_comm n m]

mutual
/-- A successful `walk` from counter `c` advances the counter by the size of
the subtree it produced, and the produced tree's pre-order `index` values
are exactly `c, c+1, ...` up to the new counter. -/
theorem walk_counts (n : DomNode) : ∀ (chain : List Crumb) (c : Nat)
    (res : Option ElementNode × Nat), walk n chain c = .ok res →
      (∀ t, res.1 = some t →
        res.2 = c + countNodes t ∧ preIdx t = List.range' c (countNodes t)) ∧
      (res.1 = none → res.2 = c) := by
  intro chain c res h
  cases n with
  | other =>
    simp [walk] at h
    subst h
    simp
  | elem d kids =>
    cases hv : isVisibleE d with
    | error e => simp [walk, hv] at h
    | ok vis =>
      cases hk : walkKids kids (elemTags kids) 0 chain (c + 1) with
      | error e => simp [walk, hv, hk] at h
      | ok p =>
        obtain ⟨cs, c'⟩ := p
        have ih := walkKids_counts kids (elemTags kids) 0 chain (c + 1) (cs, c') hk
        simp only at ih
        simp [walk, hv, hk] at h
        subst h
        refine ⟨?_, by simp⟩
        intro t ht
        injection ht with ht
        subst ht
        refine ⟨?_, ?_⟩
        · simp only [countNodes]
          omega
        · simp only [countNodes, preIdx, ih.2]
          rw [Nat.add_comm 1 (countList cs)]
          rfl
/-- Same statement for the child loop: a successful `walkKids` advances the
counter by the total size of the produced forest, whose pre-order `index`
values are the corresponding range. -/
theorem walkKids_counts (f : DomForest) : ∀ (sibs : List String) (pos : Nat)
    (chain : List Crumb) (c : Nat) (res : ENodeList × Nat),
    walkKids f sibs pos chain c = .ok res →
      res.2 = c + countList res.1 ∧
      preIdxList res.1 = List.range' c (countList res.1) := by
  intro sibs pos chain c res h
  cases f with
  | nil =>
    simp [walkKids] at h
    subst h
    simp [countList, preIdxList]
  | cons n rest =>
    cases n with
    | other =>
      simp only [walkKids] at h
      exact walkKids_counts rest sibs pos chain c res h
    | elem d k =>
      cases hw : walk (.elem d k) (⟨d.tagName, sibs, pos⟩ :: chain) c with
      | error e => simp [walkKids, hw] at h
      | ok p =>
        obtain ⟨ot, c1⟩ := p
        have ihw := walk_counts (.elem d k) (⟨d.tagName, sibs, pos⟩ :: chain) c (ot, c1) hw
        simp only at ihw
        cases ot with
        | none =>
          have hc1 : c1 = c := ihw.2 rfl
          simp only [walkKids, hw] at h
          rw [hc1] at h
          exact walkKids_counts rest sibs (pos + 1) chain c res h
        | some t =>
          have ht := ihw.1 t rfl
          cases hk2 : walkKids rest sibs (pos + 1) chain c1 with
          | error e => simp [walkKids, hw, hk2] at h
          | ok q =>
            obtain ⟨ts, c2⟩ := q
            have ih2 := walkKids_counts rest sibs (pos + 1) chain c1 (ts, c2) hk2
            simp only at ih2
            simp [walkKids, hw, hk2] at h
            subst h
            simp only [countList, preIdxList]
            refine ⟨by omega, ?_⟩
            rw [ht.2, ih2.2, ht.1]
            exact rangeGlue c (countNodes t) (countList ts)
end

/-! ## Round-trip lemmas for the wire format -/

/-- `str | None` round-trips. -/
theorem asOptStr_rt (x : Option String) : asOptStr (jOptStr x) = some x := by
  cases x <;> rfl

/-- `list[str]` round-trips. -/
theorem strList_rt (l : List String) : strListOfJArr (jStrList l) = some l := by
  induction l with
  | nil => rfl
  | cons s rest ih => simp [jStrList, strListOfJArr, ih]

/-- `dict[str, str]` round-trips. -/
theorem strPairs_rt (l : List (String × String)) :
    strPairsOfJObj (jStrPairs l) = some l := by
  induction l with
  | nil => rfl
  | cons p rest ih => simp [jStrPairs, strPairsOfJObj, ih]

/-- `BoundingClientRect` round-trips. -/
theorem asRect_rt (r : Rect) : asRect (jRect r) = some r := rfl

/-- `BoundingClientRect | None` round-trips. -/
theorem asOptRect_rt (x : Option Rect) : asOptRect (jOptRect x) = some x := by
  cases x <;> rfl

/-- The `DataAttributes` wrapper round-trips. -/
theorem asDataAttrs_rt (l : List (String × String)) :
    asDataAttrs (jDataAttrs l) = some l := by
  simp [jDataAttrs, asDataAttrs, JObj.find, strPairs_rt]

/-- A serialized index parses back. -/
theorem asNat_rt (n : Nat) : asNat (.jnum (n : Int)) = some n := by
  simp [asNat]

/-- The scalar fields of a node round-trip. -/
theorem dataFromObj_rt (d : ENodeData) (ch : JVal) :
    dataFromObj (dataFieldsJson d ch) = some d := by
  simp [dataFromObj, dataFieldsJson, getReq, getOpt, JObj.find,
    asStr, asBool, asInt, asNat_rt, asOptStr_rt, asStrList, strList_rt,
    asDataAttrs_rt, asOptRect_rt]

/-- The serialized `children` field is found and validated. -/
theorem childrenFromObj_rt (d : ENodeData) (a : JArr) :
    childrenFromObj (dataFieldsJson d (.jarr a)) = listFromJson a := by
  simp [dataFieldsJson, childrenFromObj]

mutual
/-- Serializing one node and validating it back is the identity. -/
theorem node_rt (t : ElementNode) : nodeFromJson (nodeToJson t) = some t := by
  cases t with
  | mk d kids =>
    have hk := list_rt kids
    simp [nodeToJson, nodeFromJson, childrenFromObj_rt, dataFromObj_rt, hk]
/-- Serializing a child list and validating it back is the identity. -/
theorem list_rt (l : ENodeList) : listFromJson (listToJson l) = some l := by
  cases l with
  | nil => rfl
  | cons t rest =>
    have h1 := node_rt t
    have h2 := list_rt rest
    simp [listToJson, listFromJson, h1, h2]
end

/-- Prefixing every element with `.` and concatenating equals one leading
`.` before a `.`-join. -/
theorem dotJoinCons (x : String) (xs : List String) :
    "." ++ strJoinSep "." (x :: xs) =
      strJoin ((x :: xs).map (fun s => "." ++ s)) := by
  induction xs generalizing x with
  | nil => simp [strJoinSep, strJoin]
  | cons y ys ih =>
    simp only [strJoinSep, strJoin, List.map_cons] at *
    rw [← ih y]
    simp [← String.append_assoc]

/-! ## The claims -/

/-- C1: the active `SelectorDump` model cannot be constructed with the
keywords the active `dump_selectors` passes (the required `elements` field
is absent and `root` is not a declared field), and its wire field names are
not `url, title, total_elements, root, raw_meta`.  So no capture ever
returns a record carrying the tree in a `root` field: every run of
`dump_selectors` fails at record validation. -/
theorem spec_c1_record_fields :
    pydanticConstructOk selectorDumpRequired dumpSelectorsKeywords = false ∧
    selectorDumpFields.contains "root" = false ∧
    dumpSelectorsKeywords.contains "root" = true ∧
    selectorDumpFields ≠ ["url", "title", "total_elements", "root", "raw_meta"] := by
  decide

/-- C2 (counterexample): on the bare `<html>` document the root descriptor's
`dom_path` is the string `"html > "` — with a trailing separator — and not
`"html"` as the claim states. -/
theorem spec_c2_counterexample :
    rootDomPath docHtmlOnly = some "html > " ∧
    rootDomPath docHtmlOnly ≠ some "html" := by decide

/-- C2 (amended): for every document whose root element's lower-cased tag is
`html`, whenever the collection succeeds the root descriptor's `dom_path` is
exactly `"html > "`: the literal prefix with zero walked segments, trailing
separator included. -/
theorem spec_c2_amended (d : ElemData) (kids : DomForest)
    (htag : strLower d.tagName = "html")
    (hs : rootDomPath (.elem d kids) ≠ none) :
    rootDomPath (.elem d kids) = some "html > " := by
  unfold rootDomPath resultRoot collectSelectorTree at *
  cases hv : isVisibleE d with
  | error e => simp [walk, hv] at hs
  | ok vis =>
    cases hk : walkKids kids (elemTags kids) 0 [⟨d.tagName, [d.tagName], 0⟩] 1 with
    | error e => simp [walk, hv, rootChain, hk] at hs
    | ok p =>
      obtain ⟨cs, c'⟩ := p
      simp [walk, hv, hk, descriptorData, getDomPathNode, rootChain,
        domPathSegs, htag, strJoinSep, ElementNode.data]

/-- C2 (witness): the amended statement instantiated on the bare `<html>`
document. -/
theorem spec_c2_amended_witness :
    strLower dHtmlOnly.tagName = "html" ∧ rootDomPath docHtmlOnly ≠ none ∧
    rootDomPath docHtmlOnly = some "html > " :=
  ⟨by decide, by decide, spec_c2_amended dHtmlOnly DomForest.nil (by decide) (by decide)⟩

set_option maxRecDepth 100000 in
/-- C3: `save_selector_dump` evaluated at a 260-character dump directory and
a 318-character sanitized URL: the truncation budget `250 - prelim_len` is
`-38`, the Python slice `urldir[:-38]` keeps 280 characters, and the final
path component is 285 characters long — over the 255-character ceiling the
claim states. -/
theorem spec_c3_overflow :
    255 < (saveFileName longDir longUrl ts0).length ∧
    (saveFileName longDir longUrl ts0).length = 285 := by
  have h : (saveFileName longDir longUrl ts0).length = 285 := by decide
  exact ⟨by rw [h]; omega, h⟩

/-- C4: for every input document, the `index` values of the tree a
successful walk produces, flattened in pre-order, are exactly
`0, 1, ..., totalElements - 1` — the contiguous range with no repeats,
assigned in pre-order. -/
theorem spec_c4_preorder_range (doc : DomNode) :
    (resultRoot doc).map preIdx =
      (resultRoot doc).map (fun t => List.range (countNodes t)) := by
  unfold resultRoot
  cases hres : collectSelectorTree doc with
  | error e => simp
  | ok p =>
    obtain ⟨ot, c⟩ := p
    cases ot with
    | none => simp
    | some t =>
      have h := (walk_counts doc (rootChain doc) 0 (some t, c) hres).1 t rfl
      simp only at h
      simp [h.2, List.range_eq_range']

/-- C5: for every input document, `count_nodes` applied to the produced root
(the value `dump_selectors` stores as `total_elements`) equals the number of
descriptors the walk actually produced, i.e. the final value of the walk's
index counter. -/
theorem spec_c5_total_count (doc : DomNode) :
    (resultRoot doc).map countNodes = walkProducedCount doc := by
  unfold resultRoot walkProducedCount
  cases hres : collectSelectorTree doc with
  | error e => simp
  | ok p =>
    obtain ⟨ot, c⟩ := p
    cases ot with
    | none => simp
    | some t =>
      have h := (walk_counts doc (rootChain doc) 0 (some t, c) hres).1 t rfl
      simp only at h
      simp
      omega

/-- C6: on `<html><body><div id="x"><span>A</span><span>B</span></div></body></html>`
the walk produces a root descriptor for `html` whose pre-order tags are
html, body, div, span, span; the second span's `dom_path` is
`"html > body > div > span:nth-of-type(2)"`; and `count_nodes` of the root
and the number of produced descriptors are both 5. -/
theorem spec_c6_scenario :
    (resultRoot doc6).map (fun t => t.data.tag) = some "html" ∧
    (resultRoot doc6).map preTags = some ["html", "body", "div", "span", "span"] ∧
    (resultRoot doc6).bind
        (fun t => (nodeAtPath t [0, 0, 1]).map (fun s => s.data.dom_path)) =
      some "html > body > div > span:nth-of-type(2)" ∧
    (resultRoot doc6).map countNodes = some 5 ∧
    walkProducedCount doc6 = some 5 := by decide

/-- C7: `getSimpleSelector` on an element returns `#` plus the CSS-escaped
id whenever the id is non-empty, ignoring all classes; with an empty id it
returns the lower-cased tag followed by `.` plus the escaped class for each
class-list entry in order; and on a non-element it returns the empty string
rather than failing. -/
theorem spec_c7_simple_selector (d : ElemData) (kids : DomForest) :
    getSimpleSelector (.elem d kids) =
      (if d.id = "" then
        strLower d.tagName ++
          strJoin (d.classes.map (fun cl => "." ++ cssEscape cl))
      else "#" ++ cssEscape d.id) ∧
    getSimpleSelector DomNode.other = "" := by
  refine ⟨?_, rfl⟩
  by_cases hid : d.id = ""
  · rw [if_pos hid]
    simp only [getSimpleSelector, hid, ne_eq, not_true_eq_false, if_false]
    cases hcl : d.classes with
    | nil => simp [strJoin]
    | cons x xs =>
      simp only [List.length_cons, List.map_cons]
      rw [if_pos (by omega : xs.length + 1 > 0)]
      rw [String.append_assoc]
      rw [dotJoinCons (cssEscape x) (List.map cssEscape xs)]
      simp [List.map_map, Function.comp_def]
  · rw [if_neg hid]
    simp [getSimpleSelector, hid]

/-- C8: serializing any `SelectorDump` to JSON and validating the JSON back
reproduces the record exactly — in particular the `index` values in the same
order, the same `total_elements`, and structurally identical `children`
nesting. -/
theorem spec_c8_roundtrip (s : SelectorDump) :
    dumpFromJson (dumpToJson s) = some s := by
  cases s with
  | mk url title total_elements elements raw_meta =>
    simp [dumpToJson, dumpFromJson, getReq, getOpt, JObj.find, asStr, asInt,
      asNodeList, asObj, list_rt]

/-- C9 (counterexample): on a visible element whose geometry query throws,
`getBoundingRect` itself returns `None`, but the uncaught
`getBoundingClientRect()` call inside `isVisible` propagates the failure and
the whole collection aborts — no descriptor is produced at all. -/
theorem spec_c9_counterexample :
    getBoundingRect dBadVisible = none ∧
    walkFails docBadVisible = true := by decide

/-- C9 (amended): `getBoundingRect` turns any geometry failure into `None`
without propagating; and the rest of the descriptor is still produced —
with `bounding_client_rect = None` — provided the element's computed style
already fails the visibility pre-checks (so that `isVisible` returns before
its own uncaught geometry call) and the children walk succeeds. -/
theorem spec_c9_amended (d : ElemData) (kids : DomForest) (chain : List Crumb)
    (c : Nat) (ts : ENodeList) (ck : Nat)
    (hg : d.geom = Except.error ())
    (hs : d.style.display = "none" ∨ d.style.visibility = "hidden" ∨
      d.style.opacity = "0")
    (hk : walkKids kids (elemTags kids) 0 chain (c + 1) = .ok (ts, ck)) :
    getBoundingRect d = none ∧
    walk (.elem d kids) chain c =
      .ok (some (.mk (descriptorData d kids chain c false) ts), ck) ∧
    (descriptorData d kids chain c false).bounding_client_rect = none := by
  have hv : isVisibleE d = .ok false := by
    unfold isVisibleE
    rw [if_pos hs]
  refine ⟨by simp [getBoundingRect, hg], ?_,
    by simp [descriptorData, getBoundingRect, hg]⟩
  simp [walk, hv, hk]

/-- C9 (witness): the amended statement instantiated on a childless
`display: none` element whose geometry query throws. -/
theorem spec_c9_amended_witness :
    dHidden.geom = Except.error () ∧
    dHidden.style.display = "none" ∧
    (getBoundingRect dHidden = none ∧
      walk (.elem dHidden DomForest.nil) [] 0 =
        .ok (some (.mk (descriptorData dHidden DomForest.nil [] 0 false)
          ENodeList.nil), 1) ∧
      (descriptorData dHidden DomForest.nil [] 0 false).bounding_client_rect
        = none) :=
  ⟨rfl, rfl, spec_c9_amended dHidden .nil [] 0 .nil 1 rfl (Or.inl rfl) rfl⟩

set_option maxRecDepth 100000 in
/-- C10: the URL sanitization replaces `://` as a unit but never a lone `:`:
for `https://example.com:8080/a` the sanitized URL — and hence the final
JSON filename component — still contains a `:`, while the host-derived
directory name has its `:` replaced. -/
theorem spec_c10_colon :
    sanitizeUrl "https://example.com:8080/a" = "https_example_com:8080_a" ∧
    (saveFileName "dumps" "https://example.com:8080/a" ts0).data.contains ':'
      = true ∧
    (subdirName "https://example.com:8080/a").data.contains ':' = false := by
  decide

end Webdantic
